import Mathlib

/-!
Shallow embedding of the contact-directory program (src/task.py).

Conventions of the embedding:
* Python strings are Lean `String`s; `len` is the number of code points,
  which matches `String.data.length`.
* Python exceptions become explicit results.  Constructors that can fail
  (`Name`, `Phone`, `Birthday`, `Record`) return `Except Err _`.  Mutating
  methods on an already-constructed object return the new object paired with
  `Option Err`; when the second component is `some e` the first component is
  the unchanged object, mirroring the fact that the Python method raised
  before performing any mutation.
* Error messages are carried verbatim from the source, except that the
  quote characters around interpolated values are elided.
* `dict` (via `UserDict`) is modelled as an insertion-ordered association
  list with the Python dict update rule: assigning to an existing key keeps
  its position, assigning to a fresh key appends.
-/

deriving instance DecidableEq for Except

namespace AB

/-- Python exception classes raised by the program, with their message. -/
inductive Err where
  | valueError (msg : String)
  | attributeError (msg : String)
  | typeError (msg : String)
deriving DecidableEq

/-- A Python value at the validation boundary: either a `str`, or some
non-string object (whose only relevant behaviour is that calling string
methods such as `isdigit` on it raises `AttributeError`, and `strptime`
raises `TypeError`). -/
inductive PyVal where
  | str (s : String)
  | nonstr
deriving DecidableEq

/-- Python `str.isdigit` character test, modelled on the fragment of Unicode
this development uses: ASCII digits plus the superscript digits U+00B2,
U+00B3, U+00B9, U+2070 and U+2074 to U+2079, which CPython classifies as
digits (their Unicode property is Numeric_Type=Digit), although they are not
matched by the regex class backslash-d and are rejected by `int`. -/
def pyIsDigitChar (c : Char) : Bool :=
  c.isDigit || c.toNat == 0xB2 || c.toNat == 0xB3 || c.toNat == 0xB9 ||
    c.toNat == 0x2070 || (0x2074 ≤ c.toNat && c.toNat ≤ 0x2079)

/-- Python `str.isdigit`: nonempty and every character is a digit. -/
def pyStrIsdigit (s : String) : Bool :=
  !s.data.isEmpty && s.data.all pyIsDigitChar

/-- `Name.__init__`: rejects a falsy (empty) string. -/
def makeName (s : String) : Except Err String :=
  if s = "" then .error (.valueError "Name cannot be empty") else .ok s

/-- `Phone.__init__`: on a `str`, requires `value.isdigit()` and
`len(value) == 10`, raising `ValueError` otherwise; on a non-string,
`value.isdigit()` raises `AttributeError`, which the constructor re-raises
as its own `AttributeError`. -/
def makePhone : PyVal → Except Err String
  | .str s =>
    if pyStrIsdigit s = false ∨ s.data.length ≠ 10 then
      .error (.valueError "Phone number must contain 10 digits")
    else .ok s
  | .nonstr => .error (.attributeError "Invalid format number. Use 10 digits")

/-- Gregorian leap-year rule, as used by `datetime.date`. -/
def isLeap (y : Nat) : Bool :=
  y % 4 == 0 && (y % 100 != 0 || y % 400 == 0)

/-- Length of month `m` (1-12) in year `y`, as used by `datetime.date`. -/
def daysInMonth (y m : Nat) : Nat :=
  if m == 2 then (if isLeap y then 29 else 28)
  else if m == 4 || m == 6 || m == 9 || m == 11 then 30
  else 31

/-- Numeric value of a digit string, as computed by Python `int` on the
groups captured by `strptime`. -/
def digitsToNat (ds : List Char) : Nat :=
  ds.foldl (fun n c => n * 10 + (c.toNat - 48)) 0

/-- `datetime.strptime(s, "%d.%m.%Y")`, returning the (day, month, year)
triple on success.  CPython compiles the format to the anchored regex
day `3[01]|[12]d|0[1-9]|[1-9]`, a literal dot, month `1[0-2]|0[1-9]|[1-9]`,
a literal dot, year `dddd` (four digit characters), requires the whole
input to be consumed, and then builds `datetime(year, month, day)`, which
additionally demands `1 <= year` and `day <= daysInMonth year month`.
The day and month patterns are equivalent to: a run of one or two digit
characters whose value lies in 1..31 (resp. 1..12).  Both regex-match
failure and calendar-validation failure raise `ValueError`. -/
def parseDMY (s : String) : Option (Nat × Nat × Nat) :=
  let cs := s.data
  let dcs := cs.takeWhile Char.isDigit
  let r1 := cs.dropWhile Char.isDigit
  if dcs.length = 0 ∨ 2 < dcs.length then none
  else if r1.head? ≠ some '.' then none
  else
    let r1a := r1.tail
    let mcs := r1a.takeWhile Char.isDigit
    let r2 := r1a.dropWhile Char.isDigit
    if mcs.length = 0 ∨ 2 < mcs.length then none
    else if r2.head? ≠ some '.' then none
    else
      let r2a := r2.tail
      let ycs := r2a.takeWhile Char.isDigit
      let r3 := r2a.dropWhile Char.isDigit
      if ycs.length ≠ 4 ∨ r3 ≠ [] then none
      else
        let d := digitsToNat dcs
        let m := digitsToNat mcs
        let y := digitsToNat ycs
        if 1 ≤ d ∧ d ≤ 31 ∧ 1 ≤ m ∧ m ≤ 12 ∧ 1 ≤ y ∧ d ≤ daysInMonth y m
        then some (d, m, y) else none

/-- `Birthday.__init__`: stores the raw string and validates it with
`strptime(value, "%d.%m.%Y")`; a `ValueError` from `strptime` is replaced
by the uniform message below, so both a regex mismatch and an invalid
calendar date surface identically. -/
def makeBirthday (s : String) : Except Err String :=
  match parseDMY s with
  | some _ => .ok s
  | none => .error (.valueError "Invalid date format. Use DD.MM.YYYY")

/-- `Record`: one contact.  `name` is validated at construction, `phones`
is an ordered list of validated phone strings, `birthday` an optional
validated date string. -/
structure Record where
  name : String
  phones : List String
  birthday : Option String
deriving DecidableEq

/-- `Record.__init__(name)`. -/
def makeRecord (nm : String) : Except Err Record :=
  (makeName nm).map fun n => Record.mk n [] none

/-- `Record.add_phone`: validates, then appends; on failure the record is
returned unchanged alongside the raised error. -/
def addPhone (r : Record) (raw : String) : Record × Option Err :=
  match makePhone (.str raw) with
  | .ok p => (Record.mk r.name (r.phones ++ [p]) r.birthday, none)
  | .error e => (r, some e)

/-- `Record.add_birthday`: validates, then overwrites the birthday slot;
on failure the record is returned unchanged alongside the raised error. -/
def addBirthday (r : Record) (raw : String) : Record × Option Err :=
  match makeBirthday raw with
  | .ok b => (Record.mk r.name r.phones (some b), none)
  | .error e => (r, some e)

/-- `Record.remove_phone`: removes every phone equal to the argument. -/
def removePhone (r : Record) (v : String) : Record :=
  Record.mk r.name (r.phones.filter (fun p => p ≠ v)) r.birthday

/-- `Record.find_phone`: first phone whose value equals the argument. -/
def findPhone (r : Record) (v : String) : Option String :=
  r.phones.find? (fun p => p == v)

/-- Replace the first occurrence of `old` by `new`, leaving everything else
in place: this is the effect of mutating the object `find_phone` returned. -/
def replaceFirst : List String → String → String → List String
  | [], _, _ => []
  | p :: ps, old, new =>
    if p = old then new :: ps else p :: replaceFirst ps old new

/-- `Record.edit_phone`: looks up `old`; if absent raises `ValueError`
(not-found); otherwise validates `new` with the same digit test as `Phone`
and overwrites the found slot's value in place. -/
def editPhone (r : Record) (old new : String) : Record × Option Err :=
  match findPhone r old with
  | some _ =>
    if pyStrIsdigit new = false ∨ new.data.length ≠ 10 then
      (r, some (.valueError "New phone number must contain 10 digits"))
    else
      (Record.mk r.name (replaceFirst r.phones old new) r.birthday, none)
  | none => (r, some (.valueError "Phone number not found."))

/-- `AddressBook`: the `UserDict` data, as an insertion-ordered association
list from name to record. -/
abbrev AddressBook := List (String × Record)

/-- Python dict assignment `data[k] = v`: an existing key keeps its
position and gets the new value; a fresh key is appended at the end. -/
def setKey : AddressBook → String → Record → AddressBook
  | [], k, v => [(k, v)]
  | (k0, v0) :: rest, k, v =>
    if k0 = k then (k, v) :: rest else (k0, v0) :: setKey rest k v

/-- `AddressBook.add_record`: `self.data[record.name.value] = record`. -/
def addRecord (book : AddressBook) (r : Record) : AddressBook :=
  setKey book r.name r

/-- `AddressBook.find`: `self.data.get(name)`. -/
def findRecord (book : AddressBook) (nm : String) : Option Record :=
  (book.find? (fun p => p.1 == nm)).map (fun p => p.2)

/-- `AddressBook.delete`: removes the key if present, otherwise raises
`ValueError` and leaves the data untouched. -/
def deleteRecord (book : AddressBook) (nm : String) : AddressBook × Option Err :=
  if (book.find? (fun p => p.1 == nm)).isSome then
    (book.eraseP (fun p => p.1 == nm), none)
  else
    (book, some (.valueError
      ("Record with name " ++ nm ++ " not found in the address book.")))

/-- A calendar date, as `datetime.date` holds it. -/
structure PyDate where
  year : Nat
  month : Nat
  day : Nat
deriving DecidableEq

/-- Days in the months strictly before month `m` of year `y`. -/
def daysBeforeMonth (y : Nat) : Nat → Nat
  | 0 => 0
  | m + 1 => daysBeforeMonth y m + (if m = 0 then 0 else daysInMonth y m)

/-- Days in the years strictly before year `y` (proleptic Gregorian). -/
def daysBeforeYear (y : Nat) : Nat :=
  365 * (y - 1) + (y - 1) / 4 - (y - 1) / 100 + (y - 1) / 400

/-- `datetime.date.toordinal`: day number with 0001-01-01 as day 1. -/
def toordinal (d : PyDate) : Nat :=
  daysBeforeYear d.year + daysBeforeMonth d.year d.month + d.day

/-- Python date subtraction `(a - b).days`. -/
def dateSubDays (a b : PyDate) : Int :=
  (toordinal a : Int) - (toordinal b : Int)

/-- `datetime.date.isoweekday`: Monday is 1 .. Sunday is 7. -/
def isoweekday (d : PyDate) : Nat :=
  if toordinal d % 7 = 0 then 7 else toordinal d % 7

/-- Zero-pad a number to two digits, as `strftime` does for `%d`/`%m`. -/
def pad2 (n : Nat) : String :=
  if n < 10 then "0" ++ toString n else toString n

/-- Zero-pad a number to four digits, as `strftime` does for `%Y`. -/
def pad4 (n : Nat) : String :=
  if n < 10 then "000" ++ toString n
  else if n < 100 then "00" ++ toString n
  else if n < 1000 then "0" ++ toString n
  else toString n

/-- `date.strftime("%d.%m.%Y")`. -/
def renderDate (d : PyDate) : String :=
  pad2 d.day ++ "." ++ pad2 d.month ++ "." ++ pad4 d.year

/-- One element of the list `get_upcoming_birthdays` returns: the dict
with keys `name` and `birthday`. -/
structure Entry where
  name : String
  birthday : String
deriving DecidableEq

/-- The loop body of `AddressBook.get_upcoming_birthdays`, over the list
of records (`self.data.values()` in iteration order).  For each record
with a birthday it parses the stored string, rebuilds the date in
`today.year` (`date.replace(year=today.year)`, whose construction check
can raise), computes the signed day difference, and keeps the record when
`0 <= difference <= 7`; the weekday test is taken verbatim from the
source, where both branches append the same entry.  Any exception aborts
the whole loop, so the result is `Except`.  (The stored strings are
always valid in states reachable through `add_birthday`, so the parse
error message is uniform here rather than distinguishing `strptime`
message variants on garbage states.) -/
def upcomingAux (today : PyDate) : List Record → Except Err (List Entry)
  | [] => .ok []
  | r :: rest =>
    match r.birthday with
    | none => upcomingAux today rest
    | some b =>
      match parseDMY b with
      | none => .error (.valueError "time data does not match format %d.%m.%Y")
      | some (d, m, _) =>
        if today.year = 0 ∨ 9999 < today.year then
          .error (.valueError "year is out of range")
        else if 1 ≤ d ∧ d ≤ daysInMonth today.year m then
          let birthDate : PyDate := PyDate.mk today.year m d
          let diff : Int := dateSubDays birthDate today
          if 0 ≤ diff ∧ diff ≤ 7 then
            if isoweekday birthDate < 6 then
              (upcomingAux today rest).map
                (fun es => Entry.mk r.name (renderDate birthDate) :: es)
            else
              (upcomingAux today rest).map
                (fun es => Entry.mk r.name (renderDate birthDate) :: es)
          else upcomingAux today rest
        else .error (.valueError "day is out of range for month")

/-- `AddressBook.get_upcoming_birthdays`, with the clock reading
`datetime.today().date()` made an explicit parameter. -/
def getUpcomingBirthdays (book : AddressBook) (today : PyDate) :
    Except Err (List Entry) :=
  upcomingAux today (book.map (fun p => p.2))

/-- `upcomingAux` with the dead weekday branch removed: the single
difference from `upcomingAux` is that the `isoweekday` conditional is
replaced by its (identical) branches. -/
def upcomingAuxNoWeekday (today : PyDate) : List Record → Except Err (List Entry)
  | [] => .ok []
  | r :: rest =>
    match r.birthday with
    | none => upcomingAuxNoWeekday today rest
    | some b =>
      match parseDMY b with
      | none => .error (.valueError "time data does not match format %d.%m.%Y")
      | some (d, m, _) =>
        if today.year = 0 ∨ 9999 < today.year then
          .error (.valueError "year is out of range")
        else if 1 ≤ d ∧ d ≤ daysInMonth today.year m then
          let birthDate : PyDate := PyDate.mk today.year m d
          let diff : Int := dateSubDays birthDate today
          if 0 ≤ diff ∧ diff ≤ 7 then
            (upcomingAuxNoWeekday today rest).map
              (fun es => Entry.mk r.name (renderDate birthDate) :: es)
          else upcomingAuxNoWeekday today rest
        else .error (.valueError "day is out of range for month")

/-- `getUpcomingBirthdays` with the dead weekday branch removed. -/
def getUpcomingBirthdaysNoWeekday (book : AddressBook) (today : PyDate) :
    Except Err (List Entry) :=
  upcomingAuxNoWeekday today (book.map (fun p => p.2))

/-- The report entry a record contributes according to the specification
text: reinterpret the stored birthday's day and month against
`today.year` to get a candidate date, let `delta = (candidate - today)`
in days, include the record exactly when `0 <= delta <= 7`, and report
the candidate rendered as DD.MM.YYYY. -/
def specEntry (today : PyDate) (r : Record) : Option Entry :=
  match r.birthday with
  | none => none
  | some b =>
    match parseDMY b with
    | none => none
    | some (d, m, _) =>
      let candidate : PyDate := PyDate.mk today.year m d
      let delta : Int := dateSubDays candidate today
      if 0 ≤ delta ∧ delta ≤ 7 then
        some (Entry.mk r.name (renderDate candidate))
      else none

/-- The whole result according to the specification text: the due entries
of the records, in the Directory's iteration (insertion) order. -/
def specUpcomingBirthdays (book : AddressBook) (today : PyDate) : List Entry :=
  (book.map (fun p => p.2)).filterMap (specEntry today)

/-- The phone format exactly as claimed by the specification: ten ASCII
decimal digits, i.e. the regex `[0-9]` repeated ten times, anchored. -/
def matchesTenAsciiDigits (s : String) : Bool :=
  s.data.length == 10 && s.data.all Char.isDigit

/-- The birthday format exactly as claimed by the specification: a
two-digit day, a dot, a two-digit month, a dot, and a four-digit year,
denoting a valid calendar date. -/
def strictDDMMYYYY (s : String) : Bool :=
  match s.data with
  | [d1, d2, '.', m1, m2, '.', y1, y2, y3, y4] =>
    ([d1, d2, m1, m2, y1, y2, y3, y4].all Char.isDigit) &&
      (let d := digitsToNat [d1, d2]
       let m := digitsToNat [m1, m2]
       let y := digitsToNat [y1, y2, y3, y4]
       decide (1 ≤ d ∧ 1 ≤ m ∧ m ≤ 12 ∧ 1 ≤ y ∧ d ≤ daysInMonth y m))
  | _ => false

/-- A digit-run field of `strptime`: one or two ASCII digits whose value
lies between `lo` and `hi`. -/
def digitField (cs : List Char) (lo hi : Nat) : Prop :=
  cs ≠ [] ∧ cs.length ≤ 2 ∧ cs.all Char.isDigit = true ∧
    lo ≤ digitsToNat cs ∧ digitsToNat cs ≤ hi

instance (cs : List Char) (lo hi : Nat) : Decidable (digitField cs lo hi) := by
  unfold digitField
  infer_instance

/-- The strings `makeBirthday` actually accepts, described structurally:
day field (one or two digits, value 1..31), dot, month field (one or two
digits, value 1..12), dot, exactly four digit characters of year with
value at least 1, and the day fits the month in that year. -/
def birthdayAccepted (s : String) : Prop :=
  ∃ ds ms ys : List Char,
    s.data = ds ++ '.' :: (ms ++ '.' :: ys) ∧
    digitField ds 1 31 ∧ digitField ms 1 12 ∧
    ys.length = 4 ∧ ys.all Char.isDigit = true ∧ 1 ≤ digitsToNat ys ∧
    digitsToNat ds ≤ daysInMonth (digitsToNat ys) (digitsToNat ms)

section Helpers

/-- Every element of a `takeWhile` result satisfies the predicate. -/
theorem all_takeWhile {α} (p : α → Bool) (l : List α) :
    (l.takeWhile p).all p = true := by
  induction l with
  | nil => rfl
  | cons a l ih =>
    rw [List.takeWhile_cons]
    cases hpa : p a with
    | false => rfl
    | true => simp [List.all_cons, hpa, ih]

/-- The head of a `dropWhile` result fails the predicate. -/
theorem dropWhile_head_false {α} (p : α → Bool) (l : List α) :
    ∀ c r, l.dropWhile p = c :: r → p c = false := by
  induction l with
  | nil => intro c r h; cases h
  | cons a l ih =>
    intro c r h
    rw [List.dropWhile_cons] at h
    by_cases hpa : p a = true
    · rw [if_pos hpa] at h; exact ih c r h
    · rw [if_neg hpa] at h
      cases h
      exact Bool.eq_false_iff.mpr hpa

/-- Splitting behaviour of `takeWhile`/`dropWhile` on a list that begins
with a block satisfying the predicate followed by a failing head. -/
theorem takeWhile_dropWhile_append {α} (p : α → Bool) :
    ∀ (ds rest : List α), ds.all p = true →
      (∀ c r, rest = c :: r → p c = false) →
      (ds ++ rest).takeWhile p = ds ∧ (ds ++ rest).dropWhile p = rest := by
  intro ds
  induction ds with
  | nil =>
    intro rest _ hrest
    cases rest with
    | nil => exact ⟨rfl, rfl⟩
    | cons c r =>
      have hc := hrest c r rfl
      constructor
      · rw [List.nil_append, List.takeWhile_cons, hc]; simp
      · rw [List.nil_append, List.dropWhile_cons, hc]; simp
  | cons d ds ih =>
    intro rest hall hrest
    rw [List.all_cons, Bool.and_eq_true] at hall
    have hrec := ih rest hall.2 hrest
    constructor
    · rw [List.cons_append, List.takeWhile_cons, hall.1]
      simp [hrec.1]
    · rw [List.cons_append, List.dropWhile_cons, hall.1]
      simpa using hrec.2

/-- `find?` with an equality test returns the sought value when present. -/
theorem find?_beq_mem {l : List String} {v : String} (h : v ∈ l) :
    l.find? (fun p => p == v) = some v := by
  induction l with
  | nil => cases h
  | cons a l ih =>
    by_cases hav : a = v
    · subst hav
      exact List.find?_cons_of_pos _ (by simp)
    · rw [List.find?_cons_of_neg _ (by simpa using hav)]
      exact ih (by
        rcases List.mem_cons.mp h with h1 | h1
        · exact absurd h1.symm hav
        · exact h1)

/-- `findPhone` misses exactly when no stored phone has the value. -/
theorem findPhone_eq_none {r : Record} {v : String} (h : v ∉ r.phones) :
    findPhone r v = none := by
  unfold findPhone
  rw [List.find?_eq_none]
  intro a ha
  simp only [beq_iff_eq]
  intro hav
  exact h (hav ▸ ha)

end Helpers

/-- C2 (counterexample): the ten-character string of U+00B2 SUPERSCRIPT
TWO passes the source's validation (`str.isdigit` accepts Unicode digit
characters and the length is 10), yet it does not match the claimed
ASCII pattern `[0-9]` times ten; so acceptance is not equivalent to the
ASCII regex. -/
theorem phone_ascii_claim_counterexample :
    makePhone (PyVal.str "²²²²²²²²²²") = Except.ok "²²²²²²²²²²" ∧
      matchesTenAsciiDigits "²²²²²²²²²²" = false := by
  constructor
  · rw [makePhone, if_neg]
    rw [not_or]
    exact ⟨by decide, by decide⟩
  · decide

/-- C2 (amended): `makePhone` on a string succeeds with the same value
exactly when the string has length 10 and every character is a digit in
Python's `str.isdigit` sense (ASCII digits or other Unicode digit
characters such as superscripts); every other string fails with the
`ValueError` below; a non-string fails with the distinct
`AttributeError` kind. -/
theorem phone_validation_amended (s : String) :
    (makePhone (PyVal.str s) = Except.ok s ↔
      s.data.length = 10 ∧ s.data.all pyIsDigitChar = true) ∧
    (¬ (s.data.length = 10 ∧ s.data.all pyIsDigitChar = true) →
      makePhone (PyVal.str s) =
        Except.error (Err.valueError "Phone number must contain 10 digits")) ∧
    makePhone PyVal.nonstr =
      Except.error (Err.attributeError "Invalid format number. Use 10 digits") := by
  have hlen : s.data.length = 10 → s.data.isEmpty = false := by
    intro h10
    cases hd : s.data with
    | nil => rw [hd] at h10; cases h10
    | cons a l => rfl
  have hcond : (pyStrIsdigit s = false ∨ s.data.length ≠ 10) ↔
      ¬ (s.data.length = 10 ∧ s.data.all pyIsDigitChar = true) := by
    unfold pyStrIsdigit
    constructor
    · rintro (h | h) ⟨h10, hall⟩
      · rw [hlen h10, hall] at h; cases h
      · exact h h10
    · intro h
      by_cases h10 : s.data.length = 10
      · left
        cases hall : s.data.all pyIsDigitChar with
        | true => exact absurd ⟨h10, hall⟩ h
        | false => simp [hlen h10, hall]
      · right; exact h10
  refine ⟨?_, ?_, rfl⟩
  · constructor
    · intro h
      by_contra hc
      rw [makePhone, if_pos (hcond.mpr hc)] at h
      cases h
    · intro hc
      rw [makePhone, if_neg]
      rw [hcond]
      exact not_not_intro hc
  · intro hc
    rw [makePhone, if_pos (hcond.mpr hc)]

/-- C2 (witness): a ten-ASCII-digit string is accepted unchanged and a
five-character string is rejected with the validation error. -/
theorem phone_validation_amended_witness :
    makePhone (PyVal.str "0123456789") = Except.ok "0123456789" ∧
    makePhone (PyVal.str "12345") =
      Except.error (Err.valueError "Phone number must contain 10 digits") :=
  ⟨((phone_validation_amended "0123456789").1).mpr (by decide),
   ((phone_validation_amended "12345").2.1) (by decide)⟩

/-- C5: a directory holding a record whose birthday is Feb 29 of a leap
year, queried when `today.year` is a non-leap year, makes
`get_upcoming_birthdays` raise the date-construction error from
`date.replace(year=today.year)` instead of returning a result. -/
theorem feb29_unhandled_raises :
    getUpcomingBirthdays [("Ann", Record.mk "Ann" [] (some "29.02.2020"))]
        (PyDate.mk 2023 2 20) =
      Except.error (Err.valueError "day is out of range for month") := by
  decide

/-- C7: deleting a name that is not a key fails with the not-found
`ValueError` and returns the directory exactly as it was. -/
theorem delete_missing_unchanged (book : AddressBook) (nm : String)
    (h : findRecord book nm = none) :
    deleteRecord book nm =
      (book, some (Err.valueError
        ("Record with name " ++ nm ++ " not found in the address book."))) := by
  have hf : book.find? (fun p => p.1 == nm) = none := by
    unfold findRecord at h
    cases hx : book.find? (fun p => p.1 == nm) with
    | none => rfl
    | some p => rw [hx] at h; cases h
  unfold deleteRecord
  rw [hf]
  rfl

/-- C7 (witness): deleting the absent name Bob from a one-record
directory fails not-found and returns the directory unchanged. -/
theorem delete_missing_unchanged_witness :
    deleteRecord [("Ann", Record.mk "Ann" [] none)] "Bob" =
      ([("Ann", Record.mk "Ann" [] none)], some (Err.valueError
        "Record with name Bob not found in the address book.")) :=
  delete_missing_unchanged [("Ann", Record.mk "Ann" [] none)] "Bob" (by decide)

/-- C8: every validating operation that fails with the `ValueError`
validation kind reports the failure and leaves the state exactly as it
was: `add_phone` on a malformed phone keeps the phone list, `add_birthday`
on a malformed date keeps the birthday slot, `edit_phone` with a malformed
new number keeps the record, and `Record` construction on an empty name
produces no record at all. -/
theorem invalid_input_state_unchanged :
    (∀ (r : Record) (raw : String),
      ¬ (pyStrIsdigit raw = true ∧ raw.data.length = 10) →
      addPhone r raw =
        (r, some (Err.valueError "Phone number must contain 10 digits"))) ∧
    (∀ (r : Record) (raw : String), parseDMY raw = none →
      addBirthday r raw =
        (r, some (Err.valueError "Invalid date format. Use DD.MM.YYYY"))) ∧
    (∀ (r : Record) (old new : String), old ∈ r.phones →
      ¬ (pyStrIsdigit new = true ∧ new.data.length = 10) →
      editPhone r old new =
        (r, some (Err.valueError "New phone number must contain 10 digits"))) ∧
    makeRecord "" = Except.error (Err.valueError "Name cannot be empty") := by
  have hcond : ∀ s : String, ¬ (pyStrIsdigit s = true ∧ s.data.length = 10) →
      (pyStrIsdigit s = false ∨ s.data.length ≠ 10) := by
    intro s h
    by_cases h10 : s.data.length = 10
    · left
      cases hv : pyStrIsdigit s with
      | true => exact absurd ⟨hv, h10⟩ h
      | false => rfl
    · right; exact h10
  refine ⟨?_, ?_, ?_, rfl⟩
  · intro r raw h
    have hmp : makePhone (.str raw) =
        Except.error (Err.valueError "Phone number must contain 10 digits") := by
      simp only [makePhone]
      rw [if_pos (hcond raw h)]
    simp only [addPhone, hmp]
  · intro r raw h
    unfold addBirthday makeBirthday
    rw [h]
  · intro r old new hmem h
    have hfp : findPhone r old = some old := find?_beq_mem hmem
    simp only [editPhone, hfp]
    rw [if_pos (hcond new h)]

/-- C8 (witness): a malformed phone, a malformed date and a malformed
replacement number each leave the concrete record unchanged and report
the validation error. -/
theorem invalid_input_state_unchanged_witness :
    addPhone (Record.mk "Ann" [] none) "123" =
      (Record.mk "Ann" [] none,
        some (Err.valueError "Phone number must contain 10 digits")) ∧
    addBirthday (Record.mk "Ann" [] none) "31.04.2020" =
      (Record.mk "Ann" [] none,
        some (Err.valueError "Invalid date format. Use DD.MM.YYYY")) ∧
    editPhone (Record.mk "Ann" ["1111111111"] none) "1111111111" "12" =
      (Record.mk "Ann" ["1111111111"] none,
        some (Err.valueError "New phone number must contain 10 digits")) :=
  ⟨invalid_input_state_unchanged.1 (Record.mk "Ann" [] none) "123" (by decide),
   invalid_input_state_unchanged.2.1 (Record.mk "Ann" [] none) "31.04.2020"
     (by decide),
   invalid_input_state_unchanged.2.2.1 (Record.mk "Ann" ["1111111111"] none)
     "1111111111" "12" (by decide) (by decide)⟩

section AddRecordLemmas

/-- After `setKey` the key maps to the new value. -/
theorem findRecord_setKey_self (book : AddressBook) (k : String) (v : Record) :
    findRecord (setKey book k v) k = some v := by
  induction book with
  | nil =>
    unfold setKey findRecord
    rw [List.find?_cons_of_pos _ (by simp)]
    rfl
  | cons p rest ih =>
    obtain ⟨k0, v0⟩ := p
    unfold setKey
    by_cases hk : k0 = k
    · rw [if_pos hk]
      unfold findRecord
      rw [List.find?_cons_of_pos _ (by simp)]
      rfl
    · rw [if_neg hk]
      unfold findRecord at ih ⊢
      rw [List.find?_cons_of_neg _ (by simpa using hk)]
      exact ih

/-- `setKey` does not change the mapping of any other key. -/
theorem findRecord_setKey_other (book : AddressBook) (k : String) (v : Record)
    (nm : String) (h : nm ≠ k) :
    findRecord (setKey book k v) nm = findRecord book nm := by
  induction book with
  | nil =>
    unfold setKey findRecord
    rw [List.find?_cons_of_neg _ (by simpa using fun he => h he.symm)]
  | cons p rest ih =>
    obtain ⟨k0, v0⟩ := p
    unfold setKey
    by_cases hk : k0 = k
    · rw [if_pos hk]
      unfold findRecord
      rw [List.find?_cons_of_neg _ (by simpa using fun he => h he.symm)]
      rw [List.find?_cons_of_neg _ (by simpa [hk] using fun he => h he.symm)]
    · rw [if_neg hk]
      by_cases hnm : k0 = nm
      · unfold findRecord
        rw [List.find?_cons_of_pos _ (by simpa using hnm),
          List.find?_cons_of_pos _ (by simpa using hnm)]
      · unfold findRecord at ih ⊢
        rw [List.find?_cons_of_neg _ (by simpa using hnm),
          List.find?_cons_of_neg _ (by simpa using hnm)]
        exact ih

/-- Keys after `setKey`: unchanged when the key was present, appended
otherwise. -/
theorem keys_setKey (book : AddressBook) (k : String) (v : Record) :
    (setKey book k v).map Prod.fst =
      (if k ∈ book.map Prod.fst then book.map Prod.fst
       else book.map Prod.fst ++ [k]) := by
  induction book with
  | nil => simp [setKey]
  | cons p rest ih =>
    obtain ⟨k0, v0⟩ := p
    unfold setKey
    by_cases hk : k0 = k
    · rw [if_pos hk]
      simp [hk]
    · rw [if_neg hk]
      by_cases hmem : k ∈ rest.map Prod.fst
      · simp only [List.map_cons, ih, if_pos hmem]
        rw [if_pos (by simp [hmem])]
      · simp only [List.map_cons, ih, if_neg hmem]
        rw [if_neg (by simp [hmem]; exact fun he => hk he.symm)]
        simp

end AddRecordLemmas

/-- C9: after `add_record` the directory maps the record's name to that
record (overwriting, no merge), every other name's mapping is unchanged,
and key uniqueness is preserved, so a name maps to at most one record. -/
theorem add_record_overwrite (book : AddressBook) (r : Record) :
    findRecord (addRecord book r) r.name = some r ∧
    (∀ nm, nm ≠ r.name → findRecord (addRecord book r) nm = findRecord book nm) ∧
    ((book.map Prod.fst).Nodup → ((addRecord book r).map Prod.fst).Nodup) := by
  refine ⟨findRecord_setKey_self book r.name r,
    fun nm h => findRecord_setKey_other book r.name r nm h, ?_⟩
  intro hnd
  unfold addRecord
  rw [keys_setKey]
  by_cases hmem : r.name ∈ book.map Prod.fst
  · rw [if_pos hmem]; exact hnd
  · rw [if_neg hmem]
    rw [List.nodup_append]
    refine ⟨hnd, List.nodup_singleton _, ?_⟩
    intro a ha hb
    rw [List.mem_singleton] at hb
    exact hmem (hb ▸ ha)

/-- C9 (witness): overwriting the existing key Ann replaces its record,
leaves Bob's mapping alone, and keeps the keys duplicate-free. -/
theorem add_record_overwrite_witness :
    findRecord
        (addRecord [("Ann", Record.mk "Ann" ["1111111111"] none),
                    ("Bob", Record.mk "Bob" [] none)]
          (Record.mk "Ann" ["2222222222"] none)) "Ann" =
      some (Record.mk "Ann" ["2222222222"] none) ∧
    findRecord
        (addRecord [("Ann", Record.mk "Ann" ["1111111111"] none),
                    ("Bob", Record.mk "Bob" [] none)]
          (Record.mk "Ann" ["2222222222"] none)) "Bob" =
      findRecord [("Ann", Record.mk "Ann" ["1111111111"] none),
                  ("Bob", Record.mk "Bob" [] none)] "Bob" ∧
    ((addRecord [("Ann", Record.mk "Ann" ["1111111111"] none),
                 ("Bob", Record.mk "Bob" [] none)]
        (Record.mk "Ann" ["2222222222"] none)).map Prod.fst).Nodup :=
  ⟨(add_record_overwrite _ _).1,
   (add_record_overwrite _ _).2.1 "Bob" (by decide),
   (add_record_overwrite _ _).2.2 (by decide)⟩

section EditPhoneLemmas

/-- `replaceFirst` is precisely an in-place update at the first matching
position: `List.set` at the index of the first occurrence. -/
theorem replaceFirst_eq_set (l : List String) (old new : String)
    (h : old ∈ l) :
    replaceFirst l old new = l.set (l.indexOf old) new := by
  induction l with
  | nil => cases h
  | cons p ps ih =>
    unfold replaceFirst
    by_cases hp : p = old
    · rw [if_pos hp, List.indexOf_cons]
      have : (p == old) = true := by simpa using hp
      rw [this]
      rfl
    · rw [if_neg hp, List.indexOf_cons]
      have : (p == old) = false := by simpa using hp
      rw [this]
      have hmem : old ∈ ps := by
        rcases List.mem_cons.mp h with h1 | h1
        · exact absurd h1.symm hp
        · exact h1
      rw [ih hmem]
      rfl

/-- The new value is present after `replaceFirst` replaces an occurrence. -/
theorem mem_replaceFirst (l : List String) (old new : String) (h : old ∈ l) :
    new ∈ replaceFirst l old new := by
  induction l with
  | nil => cases h
  | cons p ps ih =>
    unfold replaceFirst
    by_cases hp : p = old
    · rw [if_pos hp]; exact List.mem_cons_self _ _
    · rw [if_neg hp]
      have hmem : old ∈ ps := by
        rcases List.mem_cons.mp h with h1 | h1
        · exact absurd h1.symm hp
        · exact h1
      exact List.mem_cons_of_mem _ (ih hmem)

end EditPhoneLemmas

/-- C6: `edit_phone` fails with the not-found error when no stored phone
equals the old value; when a match exists and the new value passes the
ten-digit validation it overwrites exactly the first matching slot in
place (the list is the old list with position `indexOf old` set to the
new value), after which `find_phone` returns the new value; and when a
match exists but the new value is malformed it fails with the validation
error, leaving the record unchanged. -/
theorem edit_phone_spec (r : Record) (old new : String) :
    (old ∉ r.phones →
      editPhone r old new =
        (r, some (Err.valueError "Phone number not found."))) ∧
    (old ∈ r.phones → pyStrIsdigit new = true ∧ new.data.length = 10 →
      editPhone r old new =
        (Record.mk r.name (r.phones.set (r.phones.indexOf old) new) r.birthday,
          none) ∧
      findPhone (editPhone r old new).1 new = some new) ∧
    (old ∈ r.phones → ¬ (pyStrIsdigit new = true ∧ new.data.length = 10) →
      editPhone r old new =
        (r, some (Err.valueError "New phone number must contain 10 digits"))) := by
  refine ⟨?_, ?_, ?_⟩
  · intro h
    have hfp : findPhone r old = none := findPhone_eq_none h
    simp only [editPhone, hfp]
  · intro hmem hvalid
    have hfp : findPhone r old = some old := find?_beq_mem hmem
    have hcond : ¬ (pyStrIsdigit new = false ∨ new.data.length ≠ 10) := by
      rw [not_or]
      exact ⟨by rw [hvalid.1]; simp, not_not_intro hvalid.2⟩
    have hedit : editPhone r old new =
        (Record.mk r.name (replaceFirst r.phones old new) r.birthday, none) := by
      simp only [editPhone, hfp]
      rw [if_neg hcond]
    refine ⟨?_, ?_⟩
    · rw [hedit, replaceFirst_eq_set r.phones old new hmem]
    · rw [hedit]
      exact find?_beq_mem (mem_replaceFirst r.phones old new hmem)
  · intro hmem hinvalid
    have hfp : findPhone r old = some old := find?_beq_mem hmem
    have hcond : pyStrIsdigit new = false ∨ new.data.length ≠ 10 := by
      by_cases h10 : new.data.length = 10
      · left
        cases hv : pyStrIsdigit new with
        | true => exact absurd ⟨hv, h10⟩ hinvalid
        | false => rfl
      · right; exact h10
    simp only [editPhone, hfp]
    rw [if_pos hcond]

/-- C6 (witness): on a record holding 1111111111, editing 1111111111 to
2222222222 succeeds, `find_phone` then returns 2222222222, and editing
the absent 9999999999 fails with the not-found error. -/
theorem edit_phone_spec_witness :
    editPhone (Record.mk "John" ["1111111111"] none) "1111111111" "2222222222" =
      (Record.mk "John"
        ((["1111111111"] : List String).set
          ((["1111111111"] : List String).indexOf "1111111111") "2222222222")
        none, none) ∧
    findPhone (editPhone (Record.mk "John" ["1111111111"] none)
        "1111111111" "2222222222").1 "2222222222" = some "2222222222" ∧
    editPhone (Record.mk "John" ["1111111111"] none) "9999999999" "2222222222" =
      (Record.mk "John" ["1111111111"] none,
        some (Err.valueError "Phone number not found.")) :=
  ⟨((edit_phone_spec (Record.mk "John" ["1111111111"] none)
      "1111111111" "2222222222").2.1 (by decide) (by decide)).1,
   ((edit_phone_spec (Record.mk "John" ["1111111111"] none)
      "1111111111" "2222222222").2.1 (by decide) (by decide)).2,
   (edit_phone_spec (Record.mk "John" ["1111111111"] none)
      "9999999999" "2222222222").1 (by decide)⟩

/-- C4: the weekday test in the report loop has no observable effect:
`get_upcoming_birthdays` is extensionally equal, on every directory state
and every value of today, to the same function with the weekday branch
removed, including on the error cases. -/
theorem weekday_branch_dead (book : AddressBook) (today : PyDate) :
    getUpcomingBirthdays book today = getUpcomingBirthdaysNoWeekday book today := by
  unfold getUpcomingBirthdays getUpcomingBirthdaysNoWeekday
  generalize book.map (fun p => p.2) = l
  induction l with
  | nil => rfl
  | cons r rest ih =>
    cases hb : r.birthday with
    | none =>
      simp only [upcomingAux, upcomingAuxNoWeekday, hb]
      exact ih
    | some b =>
      simp only [upcomingAux, upcomingAuxNoWeekday, hb]
      cases hp : parseDMY b with
      | none => simp only [hp]
      | some t =>
        obtain ⟨d, m, y⟩ := t
        simp only [hp]
        split
        · rfl
        · split
          · split
            · rw [ite_self, ih]
            · rw [ih]
          · rfl

section UpcomingLemmas

/-- Whenever the report loop returns normally, its result is exactly the
spec-side `filterMap` of the record list. -/
theorem upcomingAux_ok {today : PyDate} :
    ∀ {l : List Record} {res : List Entry},
      upcomingAux today l = Except.ok res → res = l.filterMap (specEntry today) := by
  intro l
  induction l with
  | nil =>
    intro res h
    simp only [upcomingAux] at h
    cases h
    rfl
  | cons r rest ih =>
    intro res h
    rw [List.filterMap_cons]
    cases hb : r.birthday with
    | none =>
      simp only [upcomingAux, hb] at h
      have hspec : specEntry today r = none := by simp only [specEntry, hb]
      rw [hspec]
      exact ih h
    | some b =>
      simp only [upcomingAux, hb] at h
      cases hp : parseDMY b with
      | none => simp only [hp] at h; cases h
      | some t =>
        obtain ⟨d, m, y⟩ := t
        simp only [hp] at h
        by_cases hy : today.year = 0 ∨ 9999 < today.year
        · rw [if_pos hy] at h; cases h
        · rw [if_neg hy] at h
          by_cases hd : 1 ≤ d ∧ d ≤ daysInMonth today.year m
          · rw [if_pos hd] at h
            by_cases hdelta : 0 ≤ dateSubDays (PyDate.mk today.year m d) today ∧
                dateSubDays (PyDate.mk today.year m d) today ≤ 7
            · rw [if_pos hdelta, ite_self] at h
              cases haux : upcomingAux today rest with
              | error e => rw [haux] at h; simp only [Except.map] at h; cases h
              | ok res2 =>
                rw [haux] at h
                simp only [Except.map, Except.ok.injEq] at h
                have hspec : specEntry today r =
                    some (Entry.mk r.name (renderDate (PyDate.mk today.year m d))) := by
                  simp only [specEntry, hb, hp]
                  rw [if_pos hdelta]
                rw [hspec, ← h, ih haux]
            · rw [if_neg hdelta] at h
              have hspec : specEntry today r = none := by
                simp only [specEntry, hb, hp]
                rw [if_neg hdelta]
              rw [hspec]
              exact ih h
          · rw [if_neg hd] at h; cases h

/-- A spec-side entry always carries the contributing record's name. -/
theorem specEntry_name {today : PyDate} {r : Record} {e : Entry}
    (h : specEntry today r = some e) : e.name = r.name := by
  cases hb : r.birthday with
  | none => simp only [specEntry, hb] at h; cases h
  | some b =>
    simp only [specEntry, hb] at h
    cases hp : parseDMY b with
    | none => simp only [hp] at h; cases h
    | some t =>
      obtain ⟨d, m, y⟩ := t
      simp only [hp] at h
      by_cases hdelta : 0 ≤ dateSubDays (PyDate.mk today.year m d) today ∧
          dateSubDays (PyDate.mk today.year m d) today ≤ 7
      · rw [if_pos hdelta] at h
        cases h
        rfl
      · rw [if_neg hdelta] at h; cases h

end UpcomingLemmas

/-- C1: whenever `get_upcoming_birthdays` returns a result, that result
is exactly the records of the directory, in the Directory's key
insertion order, filtered to those with a birthday whose day/month
reinterpreted against `today.year` gives a candidate with
`0 <= (candidate - today).days <= 7`, each rendered as the candidate
date in DD.MM.YYYY — the `specUpcomingBirthdays` description. -/
theorem upcoming_birthdays_matches_spec (book : AddressBook) (today : PyDate)
    (res : List Entry) (h : getUpcomingBirthdays book today = Except.ok res) :
    res = specUpcomingBirthdays book today := by
  unfold getUpcomingBirthdays at h
  unfold specUpcomingBirthdays
  exact upcomingAux_ok h

/-- C1 (witness): on a four-record directory queried at 10.06.2024, the
result equals the spec-side description; birthdays 7 or fewer days out
(including today) appear in insertion order, others are dropped. -/
theorem upcoming_birthdays_matches_spec_witness :
    getUpcomingBirthdays
        [("A", Record.mk "A" [] (some "12.06.1990")),
         ("B", Record.mk "B" [] (some "01.01.1990")),
         ("C", Record.mk "C" [] (some "17.06.1990")),
         ("D", Record.mk "D" [] (some "10.06.1985"))]
        (PyDate.mk 2024 6 10) =
      Except.ok
        [Entry.mk "A" "12.06.2024", Entry.mk "C" "17.06.2024",
         Entry.mk "D" "10.06.2024"] ∧
    [Entry.mk "A" "12.06.2024", Entry.mk "C" "17.06.2024",
     Entry.mk "D" "10.06.2024"] =
      specUpcomingBirthdays
        [("A", Record.mk "A" [] (some "12.06.1990")),
         ("B", Record.mk "B" [] (some "01.01.1990")),
         ("C", Record.mk "C" [] (some "17.06.1990")),
         ("D", Record.mk "D" [] (some "10.06.1985"))]
        (PyDate.mk 2024 6 10) :=
  ⟨by decide, upcoming_birthdays_matches_spec _ _ _ (by decide)⟩

/-- C10: the report never wraps across the year boundary.  A birthday
whose next real occurrence is within 7 days but in the next calendar
year — day/month 02.01 seen from today = 30.12.2024, whose true distance
is 3 days — is not reported, because the candidate is always built with
`today.year`, making the difference large and negative. -/
theorem no_year_boundary_wrap :
    dateSubDays (PyDate.mk 2025 1 2) (PyDate.mk 2024 12 30) = 3 ∧
    ∀ (book : AddressBook) (res : List Entry) (r : Record) (b : String)
      (yb : Nat),
      (book.map (fun p => p.2.name)).Nodup →
      (∃ k, (k, r) ∈ book) →
      r.birthday = some b →
      parseDMY b = some (2, 1, yb) →
      getUpcomingBirthdays book (PyDate.mk 2024 12 30) = Except.ok res →
      ∀ e ∈ res, e.name ≠ r.name := by
  refine ⟨by decide, ?_⟩
  intro book res r b yb hnd hk hb hp hok e he hne
  obtain ⟨k, hkmem⟩ := hk
  unfold getUpcomingBirthdays at hok
  have hres := upcomingAux_ok hok
  rw [hres] at he
  obtain ⟨r2, hr2mem, hr2⟩ := List.mem_filterMap.mp he
  have hname : r2.name = r.name := (specEntry_name hr2) ▸ hne
  have hrmem : r ∈ book.map (fun p => p.2) :=
    List.mem_map.mpr ⟨(k, r), hkmem, rfl⟩
  have hnd2 : ((book.map (fun p => p.2)).map (fun x => x.name)).Nodup := by
    rw [List.map_map]
    exact hnd
  have hr2r : r2 = r :=
    List.inj_on_of_nodup_map hnd2 hr2mem hrmem hname
  rw [hr2r] at hr2
  have hnone : specEntry (PyDate.mk 2024 12 30) r = none := by
    simp only [specEntry, hb, hp]
    rw [if_neg (by decide)]
  rw [hnone] at hr2
  cases hr2

/-- C10 (witness): with Bob holding birthday 02.01.1990 and Ann holding
31.12.1990, the 30.12.2024 report contains only Ann's entry, and that
entry is not Bob's. -/
theorem no_year_boundary_wrap_witness :
    (Entry.mk "Ann" "31.12.2024").name ≠
      (Record.mk "Bob" [] (some "02.01.1990")).name :=
  (no_year_boundary_wrap.2
    [("Bob", Record.mk "Bob" [] (some "02.01.1990")),
     ("Ann", Record.mk "Ann" [] (some "31.12.1990"))]
    [Entry.mk "Ann" "31.12.2024"]
    (Record.mk "Bob" [] (some "02.01.1990"))
    "02.01.1990" 1990
    (by decide)
    ⟨"Bob", by decide⟩
    rfl
    (by decide)
    (by decide))
    (Entry.mk "Ann" "31.12.2024") (by decide)

section BirthdayLemmas

/-- Soundness of the parser inversion: an accepted string decomposes into
the day, month and year fields described by `birthdayAccepted`. -/
theorem parseDMY_sound {s : String} {t : Nat × Nat × Nat}
    (h : parseDMY s = some t) : birthdayAccepted s := by
  simp only [parseDMY] at h
  by_cases h1 : (s.data.takeWhile Char.isDigit).length = 0 ∨
      2 < (s.data.takeWhile Char.isDigit).length
  · rw [if_pos h1] at h; cases h
  · rw [if_neg h1] at h
    by_cases h2 : (s.data.dropWhile Char.isDigit).head? ≠ some '.'
    · rw [if_pos h2] at h; cases h
    · rw [if_neg h2] at h
      rw [not_not] at h2
      cases hr1 : s.data.dropWhile Char.isDigit with
      | nil => rw [hr1] at h2; cases h2
      | cons c1 t1 =>
        rw [hr1] at h2
        simp only [List.head?_cons, Option.some.injEq] at h2
        rw [hr1] at h
        simp only [List.tail_cons] at h
        by_cases h3 : (t1.takeWhile Char.isDigit).length = 0 ∨
            2 < (t1.takeWhile Char.isDigit).length
        · rw [if_pos h3] at h; cases h
        · rw [if_neg h3] at h
          by_cases h4 : (t1.dropWhile Char.isDigit).head? ≠ some '.'
          · rw [if_pos h4] at h; cases h
          · rw [if_neg h4] at h
            rw [not_not] at h4
            cases hr2 : t1.dropWhile Char.isDigit with
            | nil => rw [hr2] at h4; cases h4
            | cons c2 t2 =>
              rw [hr2] at h4
              simp only [List.head?_cons, Option.some.injEq] at h4
              rw [hr2] at h
              simp only [List.tail_cons] at h
              by_cases h5 : (t2.takeWhile Char.isDigit).length ≠ 4 ∨
                  t2.dropWhile Char.isDigit ≠ []
              · rw [if_pos h5] at h; cases h
              · rw [if_neg h5] at h
                rw [not_or, not_not, not_not] at h5
                by_cases h6 : 1 ≤ digitsToNat (s.data.takeWhile Char.isDigit) ∧
                    digitsToNat (s.data.takeWhile Char.isDigit) ≤ 31 ∧
                    1 ≤ digitsToNat (t1.takeWhile Char.isDigit) ∧
                    digitsToNat (t1.takeWhile Char.isDigit) ≤ 12 ∧
                    1 ≤ digitsToNat (t2.takeWhile Char.isDigit) ∧
                    digitsToNat (s.data.takeWhile Char.isDigit) ≤
                      daysInMonth (digitsToNat (t2.takeWhile Char.isDigit))
                        (digitsToNat (t1.takeWhile Char.isDigit))
                · obtain ⟨hd1, hd31, hm1, hm12, hy1, hdm⟩ := h6
                  have e1 : s.data.takeWhile Char.isDigit ++
                      s.data.dropWhile Char.isDigit = s.data :=
                    List.takeWhile_append_dropWhile Char.isDigit s.data
                  rw [hr1, h2] at e1
                  have e2 : t1.takeWhile Char.isDigit ++
                      t1.dropWhile Char.isDigit = t1 :=
                    List.takeWhile_append_dropWhile Char.isDigit t1
                  rw [hr2, h4] at e2
                  have e3 : t2.takeWhile Char.isDigit ++
                      t2.dropWhile Char.isDigit = t2 :=
                    List.takeWhile_append_dropWhile Char.isDigit t2
                  rw [h5.2, List.append_nil] at e3
                  rw [← e2, ← e3] at e1
                  refine ⟨s.data.takeWhile Char.isDigit,
                    t1.takeWhile Char.isDigit, t2.takeWhile Char.isDigit,
                    ?_, ?_, ?_, h5.1, all_takeWhile _ _, hy1, hdm⟩
                  · exact e1.symm
                  · rw [not_or] at h1
                    exact ⟨fun hnil => h1.1 (by rw [hnil]; rfl),
                      Nat.le_of_not_lt h1.2, all_takeWhile _ _, hd1, hd31⟩
                  · rw [not_or] at h3
                    exact ⟨fun hnil => h3.1 (by rw [hnil]; rfl),
                      Nat.le_of_not_lt h3.2, all_takeWhile _ _, hm1, hm12⟩
                · rw [if_neg h6] at h; cases h

/-- Completeness of the parser: every string of the described shape is
accepted, with the field values as its parse. -/
theorem parseDMY_complete {s : String} (h : birthdayAccepted s) :
    ∃ t, parseDMY s = some t := by
  obtain ⟨ds, ms, ys, hsplit, hdf1, hdf2, hylen, hyall, hy1, hdm⟩ := h
  obtain ⟨hdne, hdlen, hdall, hd1, hd31⟩ := hdf1
  obtain ⟨hmne, hmlen, hmall, hm1, hm12⟩ := hdf2
  have htd1 := takeWhile_dropWhile_append Char.isDigit ds
    ('.' :: (ms ++ '.' :: ys)) hdall
    (fun c r hc => by cases hc; decide)
  have htd2 := takeWhile_dropWhile_append Char.isDigit ms ('.' :: ys) hmall
    (fun c r hc => by cases hc; decide)
  have htd3 := takeWhile_dropWhile_append Char.isDigit ys [] hyall
    (fun c r hc => by cases hc)
  rw [List.append_nil] at htd3
  refine ⟨(digitsToNat ds, digitsToNat ms, digitsToNat ys), ?_⟩
  simp only [parseDMY]
  rw [hsplit, htd1.1, htd1.2]
  rw [if_neg (by
    rw [not_or]
    exact ⟨fun h0 => hdne (List.length_eq_zero.mp h0), Nat.not_lt.mpr hdlen⟩)]
  simp only [List.head?_cons, List.tail_cons]
  rw [if_neg (by simp)]
  rw [htd2.1, htd2.2]
  rw [if_neg (by
    rw [not_or]
    exact ⟨fun h0 => hmne (List.length_eq_zero.mp h0), Nat.not_lt.mpr hmlen⟩)]
  simp only [List.head?_cons, List.tail_cons]
  rw [if_neg (by simp)]
  rw [htd3.1, htd3.2]
  rw [if_neg (by
    rw [not_or]
    exact ⟨not_not_intro hylen, by simp⟩)]
  rw [if_pos ⟨hd1, hd31, hm1, hm12, hy1, hdm⟩]

end BirthdayLemmas

/-- C3 (counterexample): the one-digit-day string parses under the
source's `strptime` call, so `makeBirthday` accepts it, although it is
not of the claimed two-digit-day DD.MM.YYYY shape; so acceptance is not
equivalent to the strict format. -/
theorem birthday_strict_format_counterexample :
    makeBirthday "1.1.2000" = Except.ok "1.1.2000" ∧
      strictDDMMYYYY "1.1.2000" = false := by decide

/-- C3 (amended): `makeBirthday` succeeds exactly when the string is
day dot month dot year where the day field is one or two digit
characters with value 1..31, the month field one or two digit characters
with value 1..12, the year exactly four digit characters with value at
least 1, and the day fits that month of that year (zero-padded
DD.MM.YYYY strings are the special case with two-digit fields); in
particular 29.02.2000 (leap day) is accepted while 31.04.2020 (invalid
calendar date) and 2000.02.29 (wrong field order) are rejected with the
validation error. -/
theorem birthday_validation_amended :
    (∀ s : String, makeBirthday s = Except.ok s ↔ birthdayAccepted s) ∧
    makeBirthday "29.02.2000" = Except.ok "29.02.2000" ∧
    makeBirthday "31.04.2020" =
      Except.error (Err.valueError "Invalid date format. Use DD.MM.YYYY") ∧
    makeBirthday "2000.02.29" =
      Except.error (Err.valueError "Invalid date format. Use DD.MM.YYYY") := by
  refine ⟨?_, by decide, by decide, by decide⟩
  intro s
  constructor
  · intro h
    cases hp : parseDMY s with
    | none => simp only [makeBirthday, hp] at h; cases h
    | some t => exact parseDMY_sound hp
  · intro h
    obtain ⟨t, hpt⟩ := parseDMY_complete h
    simp only [makeBirthday, hpt]

/-- C3 (witness): the unpadded string 7.1.2002 is accepted through the
amended description. -/
theorem birthday_validation_amended_witness :
    makeBirthday "7.1.2002" = Except.ok "7.1.2002" :=
  (birthday_validation_amended.1 "7.1.2002").mpr
    ⟨['7'], ['1'], ['2', '0', '0', '2'], by decide, by decide, by decide,
      by decide, by decide, by decide, by decide⟩

end AB
